import Mathlib

/-!
Shallow embedding of the youtube-bulk-uploader synchronization core.

The definitions below are translated from `src/gcp/main.py` (the Cloud
Function variant) and, where a claim refers to it, from `src/cli/main.py`
(the CLI variant): the reconciliation filter of `main`, the
`_resumable_upload` retry loop, `handle_post_upload_action`,
`_ensure_log_sheet_exists`, `get_youtube_videos`, and the per-item
orchestration loop of `main`.  Python `os.path.splitext` is modelled by
`splitext` exactly as `posixpath.splitext` computes it.
-/

namespace YTBU

/-- Index of the last occurrence of a character in a list of characters
(the behaviour of Python `str.rfind`, as `Option` instead of -1). -/
def lastIndexOf (c : Char) : List Char → Option Nat
  | [] => none
  | x :: xs =>
    match lastIndexOf c xs with
    | some i => some (i + 1)
    | none => if x = c then some 0 else none

/-- Position of the extension dot chosen by `posixpath.splitext`: the last
dot, provided it lies strictly after the last path separator and at least
one character between the separator and the dot is not itself a dot
(leading dots of the basename never start an extension). -/
def extDotIndex (s : List Char) : Option Nat :=
  match lastIndexOf '.' s with
  | none => none
  | some d =>
    match lastIndexOf '/' s with
    | some sp =>
      if d ≤ sp then none
      else if ((s.drop (sp + 1)).take (d - (sp + 1))).any (fun c => c ≠ '.') then some d
      else none
    | none =>
      if (s.take d).any (fun c => c ≠ '.') then some d else none

/-- Root part of `os.path.splitext`, on character lists. -/
def splitextRootL (s : List Char) : List Char :=
  match extDotIndex s with
  | some d => s.take d
  | none => s

/-- Extension part of `os.path.splitext`, on character lists. -/
def splitextExtL (s : List Char) : List Char :=
  match extDotIndex s with
  | some d => s.drop d
  | none => []

/-- Python `os.path.splitext(name)[0]`. -/
def splitextRoot (s : String) : String := ⟨splitextRootL s.data⟩

/-- Python `os.path.splitext(name)[1]`. -/
def splitextExt (s : String) : String := ⟨splitextExtL s.data⟩

theorem lastIndexOf_eq_none_of_not_mem {c : Char} {l : List Char} (h : c ∉ l) :
    lastIndexOf c l = none := by
  induction l with
  | nil => rfl
  | cons x xs ih =>
    have hx : ¬x = c := by rintro rfl; exact h (List.mem_cons_self x xs)
    have hxs : c ∉ xs := fun hm => h (List.mem_cons_of_mem x hm)
    simp [lastIndexOf, ih hxs, hx]

theorem not_mem_of_lastIndexOf_eq_none {c : Char} {l : List Char}
    (h : lastIndexOf c l = none) : c ∉ l := by
  induction l with
  | nil => simp
  | cons x xs ih =>
    simp only [lastIndexOf] at h
    cases hxs : lastIndexOf c xs with
    | some i => rw [hxs] at h; simp at h
    | none =>
      rw [hxs] at h
      by_cases hxc : x = c
      · simp [hxc] at h
      · intro hmem
        rcases List.mem_cons.mp hmem with h1 | h2
        · exact hxc h1.symm
        · exact ih hxs h2

theorem lastIndexOf_append {c : Char} {m : List Char} {i : Nat}
    (h : lastIndexOf c m = some i) (p : List Char) :
    lastIndexOf c (p ++ m) = some (p.length + i) := by
  induction p with
  | nil => simpa using h
  | cons x p' ih =>
    rw [List.cons_append]
    simp only [lastIndexOf, ih]
    simp [List.length_cons]
    omega

theorem lastIndexOf_drop {c : Char} {l : List Char} {i : Nat}
    (h : lastIndexOf c l = some i) :
    ∃ t, l.drop i = c :: t ∧ c ∉ t := by
  induction l generalizing i with
  | nil => simp [lastIndexOf] at h
  | cons x xs ih =>
    simp only [lastIndexOf] at h
    cases hxs : lastIndexOf c xs with
    | some j =>
      rw [hxs] at h
      simp only [Option.some.injEq] at h
      obtain ⟨t, ht, hnt⟩ := ih hxs
      refine ⟨t, ?_, hnt⟩
      rw [← h, List.drop_succ_cons]
      exact ht
    | none =>
      rw [hxs] at h
      by_cases hxc : x = c
      · rw [if_pos hxc] at h
        simp only [Option.some.injEq] at h
        refine ⟨xs, ?_, not_mem_of_lastIndexOf_eq_none hxs⟩
        rw [← h, List.drop_zero, hxc]
      · simp [hxc] at h

theorem extDotIndex_dot {s : List Char} {d : Nat} (h : extDotIndex s = some d) :
    lastIndexOf '.' s = some d := by
  unfold extDotIndex at h
  cases hdot : lastIndexOf '.' s with
  | none => simp only [hdot] at h; exact h
  | some d0 =>
    cases hsep : lastIndexOf '/' s with
    | some sp =>
      simp only [hdot, hsep] at h
      split_ifs at h with h1 h2
      · exact h
    | none =>
      simp only [hdot, hsep] at h
      split_ifs at h with h1
      · exact h

theorem extDotIndex_sep_lt {s : List Char} {d sp : Nat}
    (h : extDotIndex s = some d) (hsep : lastIndexOf '/' s = some sp) :
    sp < d := by
  have hdot := extDotIndex_dot h
  unfold extDotIndex at h
  simp only [hdot, hsep] at h
  split_ifs at h with h1 h2
  · omega

theorem mem_of_mem_drop {a : Char} {l : List Char} {n : Nat}
    (h : a ∈ l.drop n) : a ∈ l :=
  (List.drop_sublist n l).subset h

theorem splitextExtL_shape (s : List Char) :
    splitextExtL s = [] ∨
    ∃ t, splitextExtL s = '.' :: t ∧ '.' ∉ t ∧ '/' ∉ t := by
  cases h : extDotIndex s with
  | none => exact Or.inl (by simp [splitextExtL, h])
  | some d =>
    right
    have hdot := extDotIndex_dot h
    obtain ⟨t, ht, hnt⟩ := lastIndexOf_drop hdot
    refine ⟨t, by simp [splitextExtL, h, ht], hnt, ?_⟩
    have htail : s.drop (d + 1) = t := by
      have h1 : s.drop (d + 1) = (s.drop d).drop 1 := by
        rw [List.drop_drop]
      rw [h1, ht, List.drop_succ_cons, List.drop_zero]
    cases hsep : lastIndexOf '/' s with
    | none =>
      intro hmem
      exact not_mem_of_lastIndexOf_eq_none hsep
        (mem_of_mem_drop (htail ▸ hmem))
    | some sp =>
      have hlt : sp < d := extDotIndex_sep_lt h hsep
      obtain ⟨t2, ht2, hnt2⟩ := lastIndexOf_drop hsep
      have htail2 : s.drop (sp + 1) = t2 := by
        have h1 : s.drop (sp + 1) = (s.drop sp).drop 1 := by
          rw [List.drop_drop]
        rw [h1, ht2, List.drop_succ_cons, List.drop_zero]
      intro hmem
      have hmem2 : '/' ∈ s.drop (d + 1) := htail ▸ hmem
      have hsub : s.drop (d + 1) = t2.drop ((d + 1) - (sp + 1)) := by
        rw [← htail2, List.drop_drop]
        congr 1
        omega
      rw [hsub] at hmem2
      exact hnt2 (mem_of_mem_drop hmem2)

theorem extDotIndex_append (p t : List Char) (hne : p ≠ [])
    (hpd : '.' ∉ p) (hps : '/' ∉ p) (htd : '.' ∉ t) (hts : '/' ∉ t) :
    extDotIndex (p ++ '.' :: t) = some p.length := by
  have hdot : lastIndexOf '.' (p ++ '.' :: t) = some p.length := by
    have h0 : lastIndexOf '.' ('.' :: t) = some 0 := by
      simp [lastIndexOf, lastIndexOf_eq_none_of_not_mem htd]
    simpa using lastIndexOf_append h0 p
  have hsep : lastIndexOf '/' (p ++ '.' :: t) = none := by
    apply lastIndexOf_eq_none_of_not_mem
    intro hmem
    rcases List.mem_append.mp hmem with h | h
    · exact hps h
    · rcases List.mem_cons.mp h with h | h
      · exact absurd h (by decide)
      · exact hts h
  have htake : (p ++ '.' :: t).take p.length = p := List.take_left p ('.' :: t)
  have hany : p.any (fun c => c ≠ '.') = true := by
    cases p with
    | nil => exact absurd rfl hne
    | cons x xs =>
      have hx : x ≠ '.' := by rintro rfl; exact hpd (List.mem_cons_self _ _)
      simp [List.any_cons, hx]
  unfold extDotIndex
  simp only [hdot, hsep, htake, hany]
  exact if_pos trivial

theorem splitextRootL_append (p t : List Char) (hne : p ≠ [])
    (hpd : '.' ∉ p) (hps : '/' ∉ p) (htd : '.' ∉ t) (hts : '/' ∉ t) :
    splitextRootL (p ++ '.' :: t) = p := by
  unfold splitextRootL
  simp only [extDotIndex_append p t hne hpd hps htd hts]
  exact List.take_left p ('.' :: t)

theorem splitextRootL_no_dot {p : List Char} (hpd : '.' ∉ p) :
    splitextRootL p = p := by
  unfold splitextRootL extDotIndex
  simp only [lastIndexOf_eq_none_of_not_mem hpd]

/-- A file object returned by the Drive files listing
(`src/gcp/main.py`, `recursive_drive_search`): the fields requested are
id, name, mimeType, description, properties and labelInfo. -/
structure DriveFile where
  id : String
  name : String
  mimeType : String
  description : Option String
  properties : List (String × String)
  labelInfo : Option (List String)
deriving DecidableEq

/-- Step 5 of `main` (`src/gcp/main.py` lines 563-568): collect the Drive
files whose name with the extension stripped is not among the YouTube
video ids. -/
def videos_to_upload (drive_videos : List DriveFile)
    (youtube_video_ids : List String) : List DriveFile :=
  drive_videos.foldl
    (fun acc video =>
      if splitextRoot video.name ∈ youtube_video_ids then acc else acc ++ [video])
    []

theorem videos_to_upload_foldl (drive_videos : List DriveFile)
    (youtube_video_ids : List String) (acc : List DriveFile) :
    drive_videos.foldl
      (fun acc video =>
        if splitextRoot video.name ∈ youtube_video_ids then acc
        else acc ++ [video]) acc
    = acc ++ drive_videos.filter
        (fun v => splitextRoot v.name ∉ youtube_video_ids) := by
  induction drive_videos generalizing acc with
  | nil => simp
  | cons v rest ih =>
    by_cases h : splitextRoot v.name ∈ youtube_video_ids
    · simp [List.foldl, h, ih]
    · simp [List.foldl, h, ih]

theorem videos_to_upload_eq_filter (drive_videos : List DriveFile)
    (youtube_video_ids : List String) :
    videos_to_upload drive_videos youtube_video_ids
    = drive_videos.filter
        (fun v => splitextRoot v.name ∉ youtube_video_ids) := by
  unfold videos_to_upload
  simpa using videos_to_upload_foldl drive_videos youtube_video_ids []

/-- C2: the work list is exactly the order-preserving sublist of the store
inventory whose stripped names are absent from the catalog ids; an empty
catalog yields the entire store. -/
theorem reconcile_is_filter (S : List DriveFile) (C : List String) :
    videos_to_upload S C = S.filter (fun v => splitextRoot v.name ∉ C)
    ∧ List.Sublist (videos_to_upload S C) S
    ∧ videos_to_upload S [] = S := by
  refine ⟨videos_to_upload_eq_filter S C, ?_, ?_⟩
  · rw [videos_to_upload_eq_filter]
    exact List.filter_sublist S
  · rw [videos_to_upload_eq_filter]
    simp

/-- Configuration dataclass of `src/gcp/main.py`. -/
structure Config where
  drive_root_folder_id : Option String := none
  youtube_channel_id : Option String := none
  client_id : Option String := none
  client_secret : Option String := none
  refresh_token : Option String := none
  spreadsheet_id : Option String := none
  fetch_labels : Bool := false
  default_video_description : String := ""
  post_upload_action : String := "rename"
  completed_folder_id : Option String := none
deriving DecidableEq

/-- New source name derived by the rename branch of
`handle_post_upload_action` (`src/gcp/main.py` lines 410-423): the
YouTube video id followed by the original file extension. -/
def rename_new_name (original_file_name youtube_video_id : String) : String :=
  youtube_video_id ++ splitextExt original_file_name

/-- C6: the renamed artifact is publishId + originalExtension, stripping
its extension yields exactly the publish id, and a later run whose
catalog contains that id excludes the renamed item from the work list. -/
theorem rename_idempotent_rerun (original_file_name youtube_video_id : String)
    (h1 : youtube_video_id.data ≠ [])
    (h2 : '.' ∉ youtube_video_id.data)
    (h3 : '/' ∉ youtube_video_id.data) :
    splitextRoot (rename_new_name original_file_name youtube_video_id)
      = youtube_video_id ∧
    ∀ (S : List DriveFile) (C : List String) (v : DriveFile),
      v.name = rename_new_name original_file_name youtube_video_id →
      youtube_video_id ∈ C →
      v ∉ videos_to_upload S C := by
  have hdata : (rename_new_name original_file_name youtube_video_id).data
      = youtube_video_id.data ++ splitextExtL original_file_name.data := by
    rw [rename_new_name, String.data_append]
    rfl
  have hroot : splitextRoot (rename_new_name original_file_name youtube_video_id)
      = youtube_video_id := by
    unfold splitextRoot
    rw [hdata]
    rcases splitextExtL_shape original_file_name.data with he | ⟨t, he, htd, hts⟩
    · rw [he, List.append_nil, splitextRootL_no_dot h2]
    · rw [he, splitextRootL_append _ _ h1 h2 h3 htd hts]
  refine ⟨hroot, ?_⟩
  intro S C v hname hmem hv
  rw [videos_to_upload_eq_filter] at hv
  have hp := List.of_mem_filter hv
  simp only [decide_eq_true_eq] at hp
  rw [hname, hroot] at hp
  exact hp hmem

theorem rename_idempotent_rerun_witness :
    splitextRoot (rename_new_name "A.mp4" "xyz") = "xyz" :=
  (rename_idempotent_rerun "A.mp4" "xyz" (by decide) (by decide) (by decide)).1

/-- Retriable status codes, identical in both variants. -/
def RETRIABLE_STATUS_CODES : List Nat := [500, 502, 503, 504]

/-- Retry ceiling, identical in both variants. -/
def MAX_RETRIES : Nat := 10

/-- Response returned by one `request.next_chunk()` call: the parsed JSON
object, as an association list. -/
abbrev UploadResponse := List (String × String)

/-- Outcome of a single `request.next_chunk()` call inside the upload
loop: a terminal response, a progress step with no terminal response yet,
or a raised HttpError with a status code. -/
inductive ChunkOutcome where
  | terminal (resp : UploadResponse)
  | progress
  | httpError (status : Nat)
deriving DecidableEq

/-- Result of `_resumable_upload`: the returned response on success, or
the typed exception it raises (`UploadError` on a terminal response with
no id, the re-raised non-retriable HttpError, or
`MaxRetriesExceededError`); `outOfFuel` is the modelling artifact for a
session that never terminates. -/
inductive UploadOutcome where
  | success (resp : UploadResponse)
  | uploadError (resp : UploadResponse)
  | httpFailure (status : Nat)
  | maxRetriesExceeded
  | outOfFuel
deriving DecidableEq

/-- The retry loop of `_resumable_upload` (`src/gcp/main.py` lines
478-515).  `attempt` counts the `next_chunk` calls already made and
`retry` is the retry counter; the second component of the result is the
total number of chunk attempts performed. -/
def resumable_upload_loop (chunk : Nat → ChunkOutcome) :
    Nat → Nat → Nat → UploadOutcome × Nat
  | 0, attempt, _ => (.outOfFuel, attempt)
  | fuel + 1, attempt, retry =>
    match chunk attempt with
    | .progress => resumable_upload_loop chunk fuel (attempt + 1) retry
    | .terminal resp =>
      match resp.lookup "id" with
      | some _ => (.success resp, attempt + 1)
      | none => (.uploadError resp, attempt + 1)
    | .httpError s =>
      if s ∉ RETRIABLE_STATUS_CODES then (.httpFailure s, attempt + 1)
      else if retry + 1 > MAX_RETRIES then (.maxRetriesExceeded, attempt + 1)
      else resumable_upload_loop chunk fuel (attempt + 1) (retry + 1)

/-- Python `_resumable_upload(request)`: run the retry loop from a fresh
session (`response = None`, `retry = 0`). -/
def _resumable_upload (chunk : Nat → ChunkOutcome) (fuel : Nat) :
    UploadOutcome × Nat :=
  resumable_upload_loop chunk fuel 0 0

theorem resumable_upload_loop_all_retriable (chunk : Nat → ChunkOutcome)
    (hall : ∀ i, ∃ s, chunk i = .httpError s ∧ s ∈ RETRIABLE_STATUS_CODES) :
    ∀ d attempt retry fuel, retry + d = MAX_RETRIES → d + 1 ≤ fuel →
      resumable_upload_loop chunk fuel attempt retry
        = (.maxRetriesExceeded, attempt + d + 1) := by
  intro d
  induction d with
  | zero =>
    intro attempt retry fuel hrd hfuel
    obtain ⟨f, rfl⟩ : ∃ f, fuel = f + 1 := ⟨fuel - 1, by omega⟩
    obtain ⟨s, hs, hmem⟩ := hall attempt
    simp only [resumable_upload_loop, hs]
    rw [if_neg (not_not_intro hmem), if_pos (by unfold MAX_RETRIES at hrd ⊢; omega)]
  | succ d ih =>
    intro attempt retry fuel hrd hfuel
    obtain ⟨f, rfl⟩ : ∃ f, fuel = f + 1 := ⟨fuel - 1, by omega⟩
    obtain ⟨s, hs, hmem⟩ := hall attempt
    simp only [resumable_upload_loop, hs]
    rw [if_neg (not_not_intro hmem), if_neg (by omega)]
    rw [ih (attempt + 1) (retry + 1) f (by omega) (by omega)]
    congr 1
    omega

/-- C3: a session whose every chunk call raises a retriable HTTP status
performs exactly MAX_RETRIES + 1 = 11 chunk attempts and then raises
MaxRetriesExceededError. -/
theorem retriable_exhaustion (chunk : Nat → ChunkOutcome) (fuel : Nat)
    (hall : ∀ i, ∃ s, chunk i = .httpError s ∧ s ∈ RETRIABLE_STATUS_CODES)
    (hfuel : MAX_RETRIES + 1 ≤ fuel) :
    _resumable_upload chunk fuel = (.maxRetriesExceeded, MAX_RETRIES + 1)
    ∧ MAX_RETRIES + 1 = 11 := by
  refine ⟨?_, rfl⟩
  unfold _resumable_upload
  have h := resumable_upload_loop_all_retriable chunk hall MAX_RETRIES 0 0 fuel
    (by omega) (by omega)
  simpa using h

theorem retriable_exhaustion_witness :
    _resumable_upload (fun _ => .httpError 500) 11
      = (.maxRetriesExceeded, 11) :=
  (retriable_exhaustion (fun _ => .httpError 500) 11
    (fun _ => ⟨500, rfl, by decide⟩) (by decide)).1

/-- C5: a terminating `_resumable_upload` loop either returns the
populated terminal response, which does contain the id field, or fails
with one of the typed errors; a terminal response lacking the id field
produces the typed UploadError, never a null result alongside success. -/
theorem upload_success_or_typed_failure (chunk : Nat → ChunkOutcome)
    (fuel attempt retry : Nat) (out : UploadOutcome) (n : Nat)
    (h : resumable_upload_loop chunk fuel attempt retry = (out, n)) :
    out = .outOfFuel ∨
    (∃ resp, out = .success resp ∧ chunk (n - 1) = .terminal resp ∧
      ∃ i, resp.lookup "id" = some i) ∨
    (∃ resp, out = .uploadError resp ∧ chunk (n - 1) = .terminal resp ∧
      resp.lookup "id" = none) ∨
    (∃ s, out = .httpFailure s ∧ s ∉ RETRIABLE_STATUS_CODES) ∨
    out = .maxRetriesExceeded := by
  induction fuel generalizing attempt retry with
  | zero =>
    simp only [resumable_upload_loop] at h
    cases h
    exact Or.inl rfl
  | succ f ih =>
    cases hc : chunk attempt with
    | progress =>
      simp only [resumable_upload_loop, hc] at h
      exact ih _ _ h
    | terminal resp =>
      simp only [resumable_upload_loop, hc] at h
      cases hl : resp.lookup "id" with
      | some i =>
        simp only [hl] at h
        cases h
        exact Or.inr (Or.inl ⟨resp, rfl, by simpa using hc, i, hl⟩)
      | none =>
        simp only [hl] at h
        cases h
        exact Or.inr (Or.inr (Or.inl ⟨resp, rfl, by simpa using hc, hl⟩))
    | httpError s =>
      simp only [resumable_upload_loop, hc] at h
      by_cases hs : s ∉ RETRIABLE_STATUS_CODES
      · rw [if_pos hs] at h
        cases h
        exact Or.inr (Or.inr (Or.inr (Or.inl ⟨s, rfl, hs⟩)))
      · rw [if_neg hs] at h
        by_cases hr : retry + 1 > MAX_RETRIES
        · rw [if_pos hr] at h
          cases h
          exact Or.inr (Or.inr (Or.inr (Or.inr rfl)))
        · rw [if_neg hr] at h
          exact ih _ _ h

theorem upload_success_or_typed_failure_witness :
    UploadOutcome.uploadError [("status", "500")] = .outOfFuel ∨
    (∃ resp, UploadOutcome.uploadError [("status", "500")] = .success resp ∧
      (fun _ => ChunkOutcome.terminal [("status", "500")]) (1 - 1)
        = .terminal resp ∧ ∃ i, resp.lookup "id" = some i) ∨
    (∃ resp, UploadOutcome.uploadError [("status", "500")]
        = .uploadError resp ∧
      (fun _ => ChunkOutcome.terminal [("status", "500")]) (1 - 1)
        = .terminal resp ∧ resp.lookup "id" = none) ∨
    (∃ s, UploadOutcome.uploadError [("status", "500")] = .httpFailure s ∧
      s ∉ RETRIABLE_STATUS_CODES) ∨
    UploadOutcome.uploadError [("status", "500")] = .maxRetriesExceeded :=
  upload_success_or_typed_failure
    (fun _ => ChunkOutcome.terminal [("status", "500")]) 1 0 0 _ 1 (by decide)

/-- Backoff sleep of `_resumable_upload` (`src/gcp/main.py` line 511):
two to the retry counter, plus the uniform jitter from random.random(). -/
def sleep_time (retry : Nat) (jitter : ℚ) : ℚ := 2 ^ retry + jitter

/-- Backoff sleep of the CLI `resumable_upload` (`src/cli/main.py` lines
248-249): random.random() times two to the retry counter. -/
def sleep_seconds (retry : Nat) (rand : ℚ) : ℚ := rand * 2 ^ retry

/-- C4 fails on the CLI variant it also names: with random draw 0 at
retry counter 1 the CLI sleeps 0 seconds, which is not of the form
2 ^ 1 + j for any jitter j in [0, 1). -/
theorem backoff_form_counterexample :
    sleep_seconds 1 0 = 0 ∧
    ¬∃ j : ℚ, 0 ≤ j ∧ j < 1 ∧ sleep_seconds 1 0 = 2 ^ (1 : Nat) + j := by
  constructor
  · norm_num [sleep_seconds]
  · rintro ⟨j, hj0, hj1, hje⟩
    rw [sleep_seconds] at hje
    norm_num at hje
    linarith

/-- C4 amended: in the Cloud Function engine the delay equals 2 ^ retry
plus the jitter, is bounded above by 2 ^ retry + 1, and is non-decreasing
across consecutive retries; the CLI variant instead sleeps a uniform draw
from [0, 2 ^ retry). -/
theorem backoff_shape (r : Nat) (j j2 : ℚ)
    (hj0 : 0 ≤ j) (hj1 : j < 1) (hk0 : 0 ≤ j2) (hk1 : j2 < 1) :
    sleep_time r j = 2 ^ r + j ∧
    sleep_time r j ≤ 2 ^ r + 1 ∧
    sleep_time r j ≤ sleep_time (r + 1) j2 ∧
    0 ≤ sleep_seconds r j ∧ sleep_seconds r j < 2 ^ r := by
  have hpow : (1 : ℚ) ≤ 2 ^ r := one_le_pow₀ (by norm_num)
  have hsucc : (2 : ℚ) ^ (r + 1) = 2 ^ r * 2 := pow_succ 2 r
  refine ⟨rfl, ?_, ?_, ?_, ?_⟩
  · unfold sleep_time; linarith
  · unfold sleep_time; rw [hsucc]; linarith
  · unfold sleep_seconds
    exact mul_nonneg hj0 (by positivity)
  · unfold sleep_seconds
    calc j * 2 ^ r < 1 * 2 ^ r := by
          exact mul_lt_mul_of_pos_right hj1 (by positivity)
      _ = 2 ^ r := one_mul _

theorem backoff_shape_witness :
    sleep_time 1 0 = 2 ^ (1 : Nat) + 0 ∧
    sleep_time 1 0 ≤ 2 ^ (1 : Nat) + 1 ∧
    sleep_time 1 0 ≤ sleep_time (1 + 1) 0 ∧
    0 ≤ sleep_seconds 1 0 ∧ sleep_seconds 1 0 < 2 ^ (1 : Nat) :=
  backoff_shape 1 0 0 (by norm_num) (by norm_num) (by norm_num) (by norm_num)

/-- Single-quote character, used when the log strings of
`handle_post_upload_action` quote a value. -/
def squote : String := String.mk [Char.ofNat 39]

/-- Rendering of a raised HttpError, as interpolated into the info
strings. -/
structure HttpErr where
  status : Nat
  msg : String
deriving DecidableEq

instance {ε α : Type} [DecidableEq ε] [DecidableEq α] :
    DecidableEq (Except ε α) := fun a b =>
  match a, b with
  | .ok x, .ok y =>
    if h : x = y then isTrue (by rw [h])
    else isFalse (fun hc => h (by injection hc))
  | .error x, .error y =>
    if h : x = y then isTrue (by rw [h])
    else isFalse (fun hc => h (by injection hc))
  | .ok _, .error _ => isFalse (fun hc => Except.noConfusion hc)
  | .error _, .ok _ => isFalse (fun hc => Except.noConfusion hc)

/-- Outcomes of the Drive API calls that `handle_post_upload_action` can
issue: the files().update rename, files().delete, the parents lookup and
the files().update move. -/
structure DriveEnv where
  renameResult : Except HttpErr Unit
  deleteResult : Except HttpErr Unit
  getParentsResult : Except HttpErr (List String)
  moveResult : Except HttpErr Unit
deriving DecidableEq

/-- Dictionary returned by `handle_post_upload_action`:
`{'action': action, 'info': action_info}`. -/
structure ActionDetails where
  action : String
  info : String
deriving DecidableEq

/-- Python `handle_post_upload_action` (`src/gcp/main.py` lines 404-463):
dispatch on the configured action, catching every HttpError into a
descriptive info string. -/
def handle_post_upload_action (env : DriveEnv) (file_id : String)
    (original_file_name : String) (youtube_video_id : String)
    (config : Config) : ActionDetails :=
  let action := config.post_upload_action
  if action = "rename" then
    let new_name := rename_new_name original_file_name youtube_video_id
    match env.renameResult with
    | .ok _ => { action := action, info := "Renamed to " ++ new_name }
    | .error e => { action := action, info := "Rename failed: " ++ e.msg }
  else if action = "delete" then
    match env.deleteResult with
    | .ok _ => { action := action, info := "File deleted" }
    | .error e => { action := action, info := "Delete failed: " ++ e.msg }
  else if action = "move" then
    match config.completed_folder_id with
    | none =>
      { action := action,
        info := "Error: Post-Upload Action is \"move\" but \"Completed Folder ID\" is not set." }
    | some dest =>
      match env.getParentsResult with
      | .error e => { action := action, info := "Move failed: " ++ e.msg }
      | .ok _ =>
        match env.moveResult with
        | .error e => { action := action, info := "Move failed: " ++ e.msg }
        | .ok _ => { action := action, info := "Moved to folder " ++ dest }
  else
    { action := action,
      info := "Unknown action " ++ squote ++ action ++ squote }

/-- C7 fails as stated: with the unrecognized configured action
"archive", the returned outcome's action field is the invalid value
"archive" itself, not the literal "unknown". -/
theorem unknown_action_counterexample :
    (handle_post_upload_action ⟨.ok (), .ok (), .ok [], .ok ()⟩ "f1" "A.mp4"
        "xyz" { post_upload_action := "archive" }).action = "archive" ∧
    (handle_post_upload_action ⟨.ok (), .ok (), .ok [], .ok ()⟩ "f1" "A.mp4"
        "xyz" { post_upload_action := "archive" }).action ≠ "unknown" ∧
    (handle_post_upload_action ⟨.ok (), .ok (), .ok [], .ok ()⟩ "f1" "A.mp4"
        "xyz" { post_upload_action := "archive" }).info
      = "Unknown action " ++ squote ++ "archive" ++ squote := by
  refine ⟨rfl, by decide, rfl⟩

/-- C7 amended: any configured action outside rename, delete and move
returns, without raising, an outcome whose action field is the configured
invalid value itself and whose info string names that value. -/
theorem unknown_action_outcome (env : DriveEnv)
    (file_id original_file_name youtube_video_id : String) (config : Config)
    (h : config.post_upload_action ∉ (["rename", "delete", "move"] : List String)) :
    handle_post_upload_action env file_id original_file_name
        youtube_video_id config
      = { action := config.post_upload_action,
          info := "Unknown action " ++ squote ++ config.post_upload_action
            ++ squote } := by
  have h1 : config.post_upload_action ≠ "rename" := by
    intro hx; exact h (by rw [hx]; simp)
  have h2 : config.post_upload_action ≠ "delete" := by
    intro hx; exact h (by rw [hx]; simp)
  have h3 : config.post_upload_action ≠ "move" := by
    intro hx; exact h (by rw [hx]; simp)
  unfold handle_post_upload_action
  rw [if_neg h1, if_neg h2, if_neg h3]

theorem unknown_action_outcome_witness :
    handle_post_upload_action ⟨.ok (), .ok (), .ok [], .ok ()⟩ "f1" "A.mp4"
        "xyz" { post_upload_action := "archive" }
      = { action := "archive",
          info := "Unknown action " ++ squote ++ "archive" ++ squote } :=
  unknown_action_outcome ⟨.ok (), .ok (), .ok [], .ok ()⟩ "f1" "A.mp4" "xyz"
    { post_upload_action := "archive" } (by decide)

/-- Properties of one sheet tab: title and grid size. -/
structure SheetProperties where
  title : String
  rowCount : Nat
  columnCount : Nat
deriving DecidableEq

/-- One sheet tab with its cell values. -/
structure Sheet where
  properties : SheetProperties
  values : List (List String)
deriving DecidableEq

/-- The spreadsheet sink: a list of sheet tabs. -/
structure Spreadsheet where
  sheets : List Sheet
deriving DecidableEq

/-- Titles read by `_ensure_log_sheet_exists` from spreadsheets().get. -/
def sheet_titles (ss : Spreadsheet) : List String :=
  ss.sheets.map (fun s => s.properties.title)

/-- The fixed 7-column header row written into a fresh Logs sheet. -/
def logsHeader : List String :=
  ["Timestamp", "Original Filename", "Drive File ID", "YouTube ID",
   "YouTube Link", "Action", "Additional Info"]

/-- The addSheet batchUpdate request of `_ensure_log_sheet_exists`: a
Logs tab with 1 row and 7 columns. -/
def addLogsSheet (ss : Spreadsheet) : Spreadsheet :=
  ⟨ss.sheets ++ [⟨⟨"Logs", 1, 7⟩, []⟩]⟩

/-- The values().update call writing the header row into Logs!A1. -/
def writeLogsHeader (ss : Spreadsheet) : Spreadsheet :=
  ⟨ss.sheets.map (fun s =>
    if s.properties.title = "Logs" then { s with values := [logsHeader] }
    else s)⟩

/-- Python `_ensure_log_sheet_exists` (`src/gcp/main.py` lines 246-287):
skip without a spreadsheet id, and create the Logs sheet with its header
only when no sheet of that title exists. -/
def _ensure_log_sheet_exists (spreadsheet_id : Option String)
    (ss : Spreadsheet) : Spreadsheet :=
  match spreadsheet_id with
  | none => ss
  | some _ =>
    if "Logs" ∈ sheet_titles ss then ss
    else writeLogsHeader (addLogsSheet ss)

theorem writeLogsHeader_addLogsSheet {ss : Spreadsheet}
    (h : "Logs" ∉ sheet_titles ss) :
    writeLogsHeader (addLogsSheet ss)
      = ⟨ss.sheets ++ [⟨⟨"Logs", 1, 7⟩, [logsHeader]⟩]⟩ := by
  obtain ⟨l⟩ := ss
  have hmap : ∀ s ∈ l,
      (if s.properties.title = "Logs" then { s with values := [logsHeader] }
       else s) = s := by
    intro s hs
    have ht : s.properties.title ≠ "Logs" := by
      intro hx
      exact h (List.mem_map.mpr ⟨s, hs, hx⟩)
    rw [if_neg ht]
  have h1 : l.map (fun s =>
      if s.properties.title = "Logs" then { s with values := [logsHeader] }
      else s) = l :=
    (List.map_congr_left hmap).trans (List.map_id l)
  unfold writeLogsHeader addLogsSheet
  congr 1
  rw [List.map_append, h1]
  rfl

/-- C8: ensureSchema is idempotent: it appends the Logs sheet with the
fixed 7-column header exactly when no Logs sheet exists, leaves a sink
that already has one unchanged, and a second call adds nothing. -/
theorem ensure_log_sheet_idempotent (spreadsheet_id : Option String)
    (ss : Spreadsheet) :
    ("Logs" ∈ sheet_titles ss →
      _ensure_log_sheet_exists spreadsheet_id ss = ss) ∧
    (∀ sid, spreadsheet_id = some sid → "Logs" ∉ sheet_titles ss →
      _ensure_log_sheet_exists spreadsheet_id ss
        = ⟨ss.sheets ++ [⟨⟨"Logs", 1, 7⟩, [logsHeader]⟩]⟩) ∧
    _ensure_log_sheet_exists spreadsheet_id
        (_ensure_log_sheet_exists spreadsheet_id ss)
      = _ensure_log_sheet_exists spreadsheet_id ss := by
  cases spreadsheet_id with
  | none => exact ⟨fun _ => rfl, fun sid h => absurd h (by simp), rfl⟩
  | some sid =>
    by_cases hmem : "Logs" ∈ sheet_titles ss
    · refine ⟨fun _ => ?_, fun _ _ h => absurd hmem h, ?_⟩
      · unfold _ensure_log_sheet_exists
        rw [if_pos hmem]
      · unfold _ensure_log_sheet_exists
        rw [if_pos hmem, if_pos hmem]
    · have hcreated : _ensure_log_sheet_exists (some sid) ss
          = ⟨ss.sheets ++ [⟨⟨"Logs", 1, 7⟩, [logsHeader]⟩]⟩ := by
        unfold _ensure_log_sheet_exists
        rw [if_neg hmem]
        exact writeLogsHeader_addLogsSheet hmem
      refine ⟨fun h => absurd h hmem, fun _ _ _ => hcreated, ?_⟩
      have hlogs : "Logs" ∈ sheet_titles (_ensure_log_sheet_exists (some sid) ss) := by
        rw [hcreated]
        unfold sheet_titles
        rw [List.map_append]
        exact List.mem_append_right _ (by simp)
      conv_lhs => rw [_ensure_log_sheet_exists]
      rw [if_pos hlogs]

theorem ensure_log_sheet_idempotent_witness :
    _ensure_log_sheet_exists (some "S") ⟨[]⟩
      = ⟨[] ++ [⟨⟨"Logs", 1, 7⟩, [logsHeader]⟩]⟩ :=
  (ensure_log_sheet_idempotent (some "S") ⟨[]⟩).2.1 "S" rfl (by decide)

/-- A video entry built by `get_youtube_videos`: id and title from the
playlist item snippet. -/
structure YTVideo where
  id : String
  title : String
deriving DecidableEq

/-- Result of the initial channels().list call: the uploads playlist id,
a response without items, or a raised HttpError. -/
inductive ChannelListResult where
  | ok (uploads_playlist_id : String)
  | noItems
  | httpError (status : Nat)
deriving DecidableEq

/-- Result of one playlistItems().list page call. -/
inductive PlaylistPage where
  | ok (items : List YTVideo) (hasNextPageToken : Bool)
  | httpError (status : Nat)
deriving DecidableEq

/-- Pagination loop of `get_youtube_videos` (`src/gcp/main.py` lines
346-361): accumulate page items until no next page token remains; a
raised HttpError is caught and the videos collected so far are
returned. -/
def get_youtube_videos_loop (pages : Nat → PlaylistPage) :
    Nat → Nat → List YTVideo → List YTVideo
  | 0, _, videos => videos
  | fuel + 1, page, videos =>
    match pages page with
    | .httpError _ => videos
    | .ok items next =>
      if next then
        get_youtube_videos_loop pages fuel (page + 1) (videos ++ items)
      else videos ++ items

/-- Python `get_youtube_videos` (`src/gcp/main.py` lines 320-364). -/
def get_youtube_videos (channel : ChannelListResult)
    (pages : Nat → PlaylistPage) (fuel : Nat) : List YTVideo :=
  match channel with
  | .ok _ => get_youtube_videos_loop pages fuel 0 []
  | .noItems => []
  | .httpError _ => []

/-- Step 3 of `main`: the id set built from the fetched catalog. -/
def youtube_video_ids (videos : List YTVideo) : List String :=
  videos.map (fun v => v.id)

/-- Concatenation of the catalog pages `start`, ..., `start + k - 1`. -/
def pagesConcat (P : Nat → List YTVideo) : Nat → Nat → List YTVideo
  | _, 0 => []
  | start, k + 1 => P start ++ pagesConcat P (start + 1) k

theorem get_youtube_videos_loop_caught (pages : Nat → PlaylistPage)
    (P : Nat → List YTVideo) (s : Nat) :
    ∀ k start fuel videos,
      (∀ i, start ≤ i → i < start + k → pages i = .ok (P i) true) →
      pages (start + k) = .httpError s → k < fuel →
      get_youtube_videos_loop pages fuel start videos
        = videos ++ pagesConcat P start k := by
  intro k
  induction k with
  | zero =>
    intro start fuel videos hok herr hfuel
    obtain ⟨f, rfl⟩ : ∃ f, fuel = f + 1 := ⟨fuel - 1, by omega⟩
    have h0 : pages start = .httpError s := by simpa using herr
    simp [get_youtube_videos_loop, h0, pagesConcat]
  | succ k ih =>
    intro start fuel videos hok herr hfuel
    obtain ⟨f, rfl⟩ : ∃ f, fuel = f + 1 := ⟨fuel - 1, by omega⟩
    have h0 : pages start = .ok (P start) true :=
      hok start le_rfl (by omega)
    simp only [get_youtube_videos_loop, h0, if_true]
    have herr2 : pages (start + 1 + k) = .httpError s := by
      have he : start + (k + 1) = start + 1 + k := by omega
      rw [← he]
      exact herr
    rw [ih (start + 1) f (videos ++ P start)
      (fun i h1 h2 => hok i (by omega) (by omega)) herr2 (by omega)]
    rw [pagesConcat, List.append_assoc]

/-- C9: when page k of the catalog listing raises an HttpError, the
caught error yields exactly the pages fetched before it; the reconciler
filters the store against that partial id set; and a failure before any
page was fetched behaves exactly like an empty catalog, so the entire
store becomes new work. -/
theorem catalog_fetch_failure_caught (pl : String)
    (pages : Nat → PlaylistPage) (P : Nat → List YTVideo) (k s fuel : Nat)
    (hok : ∀ i, i < k → pages i = .ok (P i) true)
    (herr : pages k = .httpError s)
    (hfuel : k < fuel) :
    get_youtube_videos (.ok pl) pages fuel = pagesConcat P 0 k ∧
    (∀ S, videos_to_upload S
        (youtube_video_ids (get_youtube_videos (.ok pl) pages fuel))
      = S.filter (fun v =>
          splitextRoot v.name ∉ youtube_video_ids (pagesConcat P 0 k))) ∧
    (k = 0 →
      get_youtube_videos (.ok pl) pages fuel
          = get_youtube_videos (.ok pl) (fun _ => .ok [] false) fuel ∧
      ∀ S, videos_to_upload S
          (youtube_video_ids (get_youtube_videos (.ok pl) pages fuel)) = S) := by
  have hmain : get_youtube_videos (.ok pl) pages fuel = pagesConcat P 0 k := by
    unfold get_youtube_videos
    have h := get_youtube_videos_loop_caught pages P s k 0 fuel []
      (fun i h1 h2 => hok i (by omega)) (by simpa using herr) hfuel
    simpa using h
  refine ⟨hmain, ?_, ?_⟩
  · intro S
    rw [hmain, videos_to_upload_eq_filter]
  · intro hk
    subst hk
    have hempty : pagesConcat P 0 0 = [] := rfl
    constructor
    · rw [hmain, hempty]
      obtain ⟨f, rfl⟩ : ∃ f, fuel = f + 1 := ⟨fuel - 1, by omega⟩
      simp [get_youtube_videos, get_youtube_videos_loop]
    · intro S
      rw [hmain, hempty, videos_to_upload_eq_filter]
      simp [youtube_video_ids]

theorem catalog_fetch_failure_caught_witness :
    get_youtube_videos (.ok "UU1")
        (fun n => if n = 0 then .ok [⟨"A", "tA"⟩] true else .httpError 500) 2
      = pagesConcat (fun _ => [⟨"A", "tA"⟩]) 0 1 :=
  (catalog_fetch_failure_caught "UU1"
    (fun n => if n = 0 then .ok [⟨"A", "tA"⟩] true else .httpError 500)
    (fun _ => [⟨"A", "tA"⟩]) 1 500 2 (by decide) (by decide) (by decide)).1

/-- Snippet part of the upload body. -/
structure Snippet where
  title : String
  description : String
  tags : String
deriving DecidableEq

/-- Status part of the upload body. -/
structure VideoStatus where
  privacyStatus : String
  selfDeclaredMadeForKids : Bool
deriving DecidableEq

/-- Upload body of the videos().insert request. -/
structure UploadBody where
  snippet : Snippet
  status : VideoStatus
deriving DecidableEq

/-- Body built by `main` for one new video (`src/gcp/main.py` lines
592-622): title from the stripped file name, description from the file
or the configured default, tags from the file properties and the
resolved Drive labels, madeForKids from the file properties, and the
literal privacyStatus "unlisted". -/
def upload_body (video : DriveFile) (config : Config)
    (drive_labels : List (String × String)) : UploadBody :=
  let title := splitextRoot video.name
  let description :=
    match video.description with
    | some d => if d = "" then config.default_video_description else d
    | none => config.default_video_description
  let tags_from_properties := video.properties.map Prod.fst
  let tags_from_labels :=
    if config.fetch_labels then
      match video.labelInfo with
      | some label_ids =>
        label_ids.filterMap (fun lid => drive_labels.lookup lid)
      | none => []
    else []
  let tags := String.intercalate "," (tags_from_properties ++ tags_from_labels)
  let made_for_kids :=
    ((video.properties.lookup "madeForKids").getD "FALSE").toUpper == "TRUE"
  { snippet := { title := title, description := description, tags := tags },
    status := { privacyStatus := "unlisted",
                selfDeclaredMadeForKids := made_for_kids } }

/-- Upload body of the CLI variant, whose madeForKids field is the raw
sheet cell string (or the default False rendered as a string). -/
structure CliUploadBody where
  snippet : Snippet
  privacyStatus : String
  selfDeclaredMadeForKids : String
deriving DecidableEq

/-- Body built by the CLI `main` for one sheet row (`src/cli/main.py`
lines 117-160). -/
def cli_upload_body (value : List String)
    (default_video_description : String) : CliUploadBody :=
  let file_name := value.getD 0 ""
  let title0 := if 2 < value.length then value.getD 2 "" else ""
  let description :=
    if 3 < value.length then value.getD 3 "" else default_video_description
  let tags := if 4 < value.length then value.getD 4 "" else ""
  let self_declared_made_for_kids :=
    if 5 < value.length then value.getD 5 "" else "False"
  let title := if title0 = "" then file_name.replace ".mp4" "" else title0
  { snippet := { title := title, description := description, tags := tags },
    privacyStatus := "unlisted",
    selfDeclaredMadeForKids := self_declared_made_for_kids }

/-- C10: every upload body either variant builds carries privacyStatus
"unlisted", for every item and every configuration. -/
theorem privacy_always_unlisted :
    (∀ (video : DriveFile) (config : Config)
        (drive_labels : List (String × String)),
      (upload_body video config drive_labels).status.privacyStatus
        = "unlisted") ∧
    (∀ (value : List String) (default_video_description : String),
      (cli_upload_body value default_video_description).privacyStatus
        = "unlisted") :=
  ⟨fun _ _ _ => rfl, fun _ _ => rfl⟩

/-- The typed exceptions `_resumable_upload` can raise into `main`. -/
inductive UploadRaise where
  | uploadError (resp : UploadResponse)
  | httpFailure (status : Nat)
  | maxRetriesExceeded
deriving DecidableEq

/-- Per-item outcomes of the two transfer calls made inside the loop of
`main`: `download_file_from_drive` either completes or lets an HttpError
with some status propagate, and `_resumable_upload` either returns a
response or raises. -/
structure ItemEnv where
  video : DriveFile
  downloadResult : Except Nat Unit
  uploadResult : Except UploadRaise UploadResponse
deriving DecidableEq

/-- An exception escaping the loop of `main`, with the stage it came
from. -/
inductive BatchAbort where
  | downloadFailed (video : DriveFile) (status : Nat)
  | uploadFailed (video : DriveFile) (e : UploadRaise)
deriving DecidableEq

/-- Outcome recorded for an item the loop completes. -/
inductive ItemResult where
  | uploaded (video : DriveFile) (youtube_video_id : String)
  | skippedNoId (video : DriveFile)
deriving DecidableEq

/-- One iteration of the loop of `main` (`src/gcp/main.py` lines
582-656): download, upload, then either skip the item when the returned
response is falsy or has no id, or record the uploaded id; any exception
raised by the two transfer calls propagates uncaught. -/
def process_item (env : ItemEnv) : Except BatchAbort ItemResult :=
  match env.downloadResult with
  | .error s => .error (.downloadFailed env.video s)
  | .ok _ =>
    match env.uploadResult with
    | .error e => .error (.uploadFailed env.video e)
    | .ok resp =>
      match resp.lookup "id" with
      | none => .ok (.skippedNoId env.video)
      | some i => .ok (.uploaded env.video i)

/-- The `for video in videos_to_upload` loop of `main`: strictly
sequential, with no per-item exception handler, so an uncaught exception
aborts the whole batch. -/
def main_batch_loop : List ItemEnv → Except BatchAbort (List ItemResult)
  | [] => .ok []
  | env :: rest =>
    match process_item env with
    | .error e => .error e
    | .ok r =>
      match main_batch_loop rest with
      | .error e => .error e
      | .ok rs => .ok (r :: rs)

/-- C1 fails: the loop of `main` catches nothing, so the first item's
MaxRetriesExceededError aborts the batch; the second item, which would
succeed when processed on its own, is never reached. -/
theorem batch_abort_counterexample :
    main_batch_loop
        [⟨⟨"idA", "A.mp4", "video/mp4", none, [], none⟩, .ok (),
          .error .maxRetriesExceeded⟩,
         ⟨⟨"idB", "B.mp4", "video/mp4", none, [], none⟩, .ok (),
          .ok [("id", "xyz")]⟩]
      = .error (.uploadFailed ⟨"idA", "A.mp4", "video/mp4", none, [], none⟩
          .maxRetriesExceeded) ∧
    main_batch_loop
        [⟨⟨"idB", "B.mp4", "video/mp4", none, [], none⟩, .ok (),
          .ok [("id", "xyz")]⟩]
      = .ok [.uploaded ⟨"idB", "B.mp4", "video/mp4", none, [], none⟩ "xyz"] :=
  ⟨rfl, rfl⟩

/-- C1 amended: a transfer failure at the download or upload stage of any
item propagates out of the loop and aborts the batch at that item; the
items after it are not processed. -/
theorem batch_aborts_at_first_failure (pre post : List ItemEnv)
    (env : ItemEnv) (e : BatchAbort)
    (hpre : ∀ x ∈ pre, ∃ r, process_item x = .ok r)
    (henv : process_item env = .error e) :
    main_batch_loop (pre ++ env :: post) = .error e := by
  induction pre with
  | nil =>
    simp only [List.nil_append, main_batch_loop, henv]
  | cons x xs ih =>
    obtain ⟨r, hr⟩ := hpre x (List.mem_cons_self x xs)
    have ihh := ih (fun y hy => hpre y (List.mem_cons_of_mem x hy))
    simp only [List.cons_append, main_batch_loop, hr, List.append_eq, ihh]

theorem batch_aborts_at_first_failure_witness :
    main_batch_loop
        ([] ++ ⟨⟨"idC", "C.mp4", "video/mp4", none, [], none⟩, .ok (),
            .error .maxRetriesExceeded⟩ ::
          [⟨⟨"idD", "D.mp4", "video/mp4", none, [], none⟩, .ok (),
            .ok [("id", "vid9")]⟩])
      = .error (.uploadFailed ⟨"idC", "C.mp4", "video/mp4", none, [], none⟩
          .maxRetriesExceeded) :=
  batch_aborts_at_first_failure []
    [⟨⟨"idD", "D.mp4", "video/mp4", none, [], none⟩, .ok (),
      .ok [("id", "vid9")]⟩]
    ⟨⟨"idC", "C.mp4", "video/mp4", none, [], none⟩, .ok (),
      .error .maxRetriesExceeded⟩
    (.uploadFailed ⟨"idC", "C.mp4", "video/mp4", none, [], none⟩
      .maxRetriesExceeded)
    (fun x hx => absurd hx (List.not_mem_nil x)) rfl

end YTBU
